import Mathlib

/-!
Shallow embedding of the hybrid document text-extraction pipeline of
`app/services/google_client.py` (class `VisionService`).

External capabilities (Google Vision OCR, `pdfplumber` parsing, `pdf2image`
rasterization) are modelled as deterministic oracles bundled in `Caps`; a
capability that raises an exception is an oracle returning `Except.error`.
Every function additionally returns the list of capability-invocation events
it performs, so that properties about how often the external OCR / parsing /
rendering capabilities are invoked can be stated and proved.

The non-deterministic completion order of the `ThreadPoolExecutor` futures in
`_extract_text_via_images` is modelled by an explicit `order` parameter: the
list of (page number, image) pairs in the order their futures complete.
Theorems about the merge quantify over every permutation of the dispatched
futures.
-/

namespace VisionService

/-- Input files are raw byte sequences. -/
abbrev Bytes := List Nat

/-- The four magic bytes of the literal `%PDF` signature. -/
def pdfMagic : Bytes := [37, 80, 68, 70]

/-- `_is_pdf`: check if file is PDF by magic bytes (`file_bytes[:4] == b'%PDF'`). -/
def is_pdf (fileBytes : Bytes) : Bool :=
  fileBytes.take 4 = pdfMagic

/-- A response of the Google Vision `document_text_detection` call:
`error.message` (empty string when absent) and the `description` fields of
`text_annotations`. -/
structure OcrResponse where
  errorMessage : String
  annotations : List String

/-- A capability-invocation event performed during an extraction call. -/
inductive Event where
  /-- `pdfplumber.open` was invoked on the input bytes. -/
  | pdfOpenEv : Event
  /-- the rasterization capability (`convert_from_bytes`) produced the raster
  of the given 1-indexed page. -/
  | renderEv : Nat → Event
  /-- the vision-OCR capability was invoked once on the whole input (image path). -/
  | ocrImageEv : Event
  /-- the vision-OCR capability was invoked on the raster of the given page. -/
  | ocrPageEv : Int → Event
deriving DecidableEq

/-- Events that are invocations of the external vision-OCR capability. -/
def Event.isOcr : Event → Bool
  | .ocrImageEv => true
  | .ocrPageEv _ => true
  | _ => false

/-- The external capabilities consumed by `VisionService`, as deterministic
oracles.  `Except.error` models the underlying call raising an exception. -/
structure Caps where
  /-- `pdfplumber.open` followed by per-page `page.extract_text()`: `none`
  models an unopenable PDF (open raises); otherwise one entry per page,
  `Except.error` modelling a page whose `extract_text` raises. -/
  pdfParse : Bytes → Option (List (Except Unit String))
  /-- `convert_from_bytes`: either raises, or yields rasters of all pages
  (returned as the page count; page `n` raster is identified by `n`). -/
  renderAll : Bytes → Except Unit Nat
  /-- `document_text_detection` on the raster of a page (identified by its
  1-indexed page number); `Except.error` models the call raising. -/
  ocrPage : Int → Except Unit OcrResponse
  /-- `document_text_detection` on the raw input bytes (image path). -/
  ocrImage : Bytes → Except Unit OcrResponse

/-- The whitespace characters stripped by Python's `str.strip()`: exactly
the code points for which `str.isspace()` holds — `\t \n \v \f \r`
(U+0009–U+000D), the separators U+001C–U+001F, the space U+0020, U+0085
(NEL), U+00A0 (NBSP), U+1680, U+2000–U+200A, U+2028, U+2029, U+202F,
U+205F and U+3000. -/
def pyIsSpace (c : Char) : Bool :=
  (0x09 ≤ c.toNat && c.toNat ≤ 0x0d)
  || (0x1c ≤ c.toNat && c.toNat ≤ 0x1f)
  || c.toNat == 0x20
  || c.toNat == 0x85
  || c.toNat == 0xa0
  || c.toNat == 0x1680
  || (0x2000 ≤ c.toNat && c.toNat ≤ 0x200a)
  || c.toNat == 0x2028
  || c.toNat == 0x2029
  || c.toNat == 0x202f
  || c.toNat == 0x205f
  || c.toNat == 0x3000

/-- `str.strip()`: remove leading and trailing whitespace. -/
def pyStrip (s : List Char) : List Char :=
  ((s.dropWhile pyIsSpace).reverse.dropWhile pyIsSpace).reverse

/-- The CID-artifact pattern `'(cid:'` counted by `_is_text_quality_good`. -/
def cidPattern : List Char := ['(', 'c', 'i', 'd', ':']

/-- The left-to-right non-overlapping scan of Python `str.count`:
`countCidAux k s` is the scan over `s` with `k` characters still to be
skipped because a previous match consumed them; on a match at the current
position one occurrence is counted and the following four characters are
skipped, so the scan resumes right after the matched pattern. -/
def countCidAux : Nat → List Char → Nat
  | _, [] => 0
  | Nat.succ k, _ :: rest => countCidAux k rest
  | 0, c :: rest =>
    if (c :: rest).take 5 = cidPattern then 1 + countCidAux 4 rest
    else countCidAux 0 rest

/-- `text.count('(cid:')`. -/
def countCid (s : List Char) : Nat := countCidAux 0 s

/-- The control-character predicate of `_is_text_quality_good`:
`ord(c) < 32 and c not in '\n\t\r'`. -/
def isControlChar (c : Char) : Bool :=
  decide (c.toNat < 32) && !(c == '\n' || c == '\t' || c == '\r')

/-- `_is_text_quality_good`: evaluate if extracted text is of acceptable
quality (length check, CID-artifact ratio, control-character ratio). -/
def is_text_quality_good (text : String) : Bool :=
  if text = "" || (pyStrip text.data).length < 50 then false
  else
    let cidCount := countCid text.data
    let cidPercentage : ℚ :=
      if text ≠ "" then ((cidCount : ℚ) / (text.length : ℚ)) * 100 else 0
    if cidPercentage > 5 then false
    else
      let controlCharCount := text.data.countP isControlChar
      let controlPercentage : ℚ :=
        if text ≠ "" then ((controlCharCount : ℚ) / (text.length : ℚ)) * 100 else 0
      if controlPercentage > 10 then false
      else true

/-- `start = max(1, page_start) if page_start else 1` (Python truthiness:
`None` and `0` are falsy). -/
def effStart (pageStart : Option Int) : Int :=
  match pageStart with
  | some v => if v ≠ 0 then max 1 v else 1
  | none => 1

/-- `end = min(total_pages, page_end) if page_end else total_pages`. -/
def effEnd (totalPages : Nat) (pageEnd : Option Int) : Int :=
  match pageEnd with
  | some v => if v ≠ 0 then min (totalPages : Int) v else (totalPages : Int)
  | none => (totalPages : Int)

/-- Python `range(s, e + 1)` over integers. -/
def intRange (s e : Int) : List Int :=
  (List.range (e + 1 - s).toNat).map (fun i : Nat => s + (i : Int))

/-- The page block `f"--- Page {page_num} ---\n{page_text}\n"`. -/
def pageMarker (n : Int) (text : String) : String :=
  "--- Page " ++ toString n ++ " ---\n" ++ text ++ "\n"

/-- The per-page loop body of `_extract_text_directly_from_pdf`: the pages of
the effective range whose `extract_text()` neither raises nor yields falsy
text, paired with their 1-indexed page number.  An out-of-range index
(`pdf.pages[page_num - 1]` raising `IndexError`) is modelled by the
`Except.error` default of `getD` and skipped like any per-page exception. -/
def directEntries (pages : List (Except Unit String)) (pageStart pageEnd : Option Int) :
    List (Int × String) :=
  let s := effStart pageStart
  let e := effEnd pages.length pageEnd
  (intRange s e).filterMap (fun n =>
    match pages.getD (n - 1).toNat (Except.error ()) with
    | .error _ => none
    | .ok t => if t ≠ "" then some (n, t) else none)

/-- `"\n".join(text_parts)` for the direct-extraction path. -/
def directFromPages (pages : List (Except Unit String)) (pageStart pageEnd : Option Int) :
    String :=
  String.intercalate "\n" ((directEntries pages pageStart pageEnd).map
    (fun nt => pageMarker nt.1 nt.2))

/-- `_extract_text_directly_from_pdf`: fast direct text extraction; any
failure of `pdfplumber.open` is caught and yields `""`. -/
def extract_text_directly_from_pdf (caps : Caps) (pdfBytes : Bytes)
    (pageStart pageEnd : Option Int) : String × List Event :=
  match caps.pdfParse pdfBytes with
  | none => ("", [Event.pdfOpenEv])
  | some pages => (directFromPages pages pageStart pageEnd, [Event.pdfOpenEv])

/-- Normalization of a (possibly negative) Python slice endpoint for a list
of the given length. -/
def pySliceIdx (len : Nat) (i : Int) : Nat :=
  if i < 0 then (i + len).toNat else min i.toNat len

/-- Python list slicing `l[i:j]`. -/
def pySlice {α : Type} (l : List α) (i j : Int) : List α :=
  (l.take (pySliceIdx l.length j)).drop (pySliceIdx l.length i)

/-- The rasters produced by `convert_from_bytes`, identified by their
1-indexed page numbers. -/
def pageNumsOf (total : Nat) : List Int :=
  (List.range total).map (fun i : Nat => (i : Int) + 1)

/-- `images_to_process = all_images[start-1:end]`. -/
def imagesToProcess (total : Nat) (s e : Int) : List Int :=
  pySlice (pageNumsOf total) (s - 1) e

/-- The futures dictionary: each processed image together with the page
number `start + idx` it is keyed by. -/
def futuresOf (total : Nat) (s e : Int) : List (Int × Int) :=
  (imagesToProcess total s e).enum.map (fun p => (s + (p.1 : Int), p.2))

/-- `_extract_text_from_pil_image`: OCR one page raster, converting every
failure mode (call raising, service error message, no annotations) to `""`. -/
def pageWorker (caps : Caps) (img : Int) : String :=
  match caps.ocrPage img with
  | .error _ => ""
  | .ok r =>
    if r.errorMessage ≠ "" then ""
    else
      match r.annotations with
      | [] => ""
      | d :: _ => d

/-- The `as_completed` collection loop: walk the futures in completion
`order`, appending `(page_num, text)` whenever the completed worker returned
truthy text. -/
def collectParts (caps : Caps) (order : List (Int × Int)) : List (Int × String) :=
  order.filterMap (fun f =>
    let t := pageWorker caps f.2
    if t ≠ "" then some (f.1, t) else none)

/-- `text_parts.sort(key=lambda x: x[0])`: comparison by page number. -/
def pageLe (a b : Int × String) : Prop := a.1 ≤ b.1

instance : DecidableRel pageLe := fun a b => inferInstanceAs (Decidable (a.1 ≤ b.1))

instance : IsTotal (Int × String) pageLe := ⟨fun a b => Int.le_total a.1 b.1⟩

instance : IsTrans (Int × String) pageLe := ⟨fun _ _ _ h1 h2 => le_trans h1 h2⟩

/-- Strict page-number order; used to state that the merged blocks are in
strictly ascending page order. -/
def pageLt (a b : Int × String) : Prop := a.1 < b.1

instance : IsAntisymm (Int × String) pageLt :=
  ⟨fun _ _ h1 h2 => absurd (lt_trans h1 h2) (lt_irrefl _)⟩

/-- `_extract_text_via_images`: convert the PDF to images (all pages), slice
out the requested range, OCR each sliced page, collect results in completion
`order`, sort by page number and join.  A failing conversion is caught and
yields `""`. -/
def extract_text_via_images (caps : Caps) (pdfBytes : Bytes)
    (pageStart pageEnd : Option Int) (order : List (Int × Int)) :
    String × List Event :=
  match caps.renderAll pdfBytes with
  | .error _ => ("", [])
  | .ok total =>
    let renderEvents := (List.range total).map (fun i => Event.renderEv (i + 1))
    let s := effStart pageStart
    let e := effEnd total pageEnd
    let imgs := imagesToProcess total s e
    if imgs.isEmpty then ("", renderEvents)
    else
      let ocrEvents := imgs.map (fun p => Event.ocrPageEv p)
      let parts := collectParts caps order
      let sorted := List.insertionSort pageLe parts
      (String.intercalate "\n" (sorted.map (fun nt => pageMarker nt.1 nt.2)),
       renderEvents ++ ocrEvents)

/-- `_extract_text_from_pdf_hybrid`: phase 1 direct extraction, quality
check, phase 2 image-based OCR fallback. -/
def extract_text_from_pdf_hybrid (caps : Caps) (pdfBytes : Bytes)
    (pageStart pageEnd : Option Int) (order : List (Int × Int)) :
    String × List Event :=
  let p1 := extract_text_directly_from_pdf caps pdfBytes pageStart pageEnd
  if p1.1 ≠ "" ∧ is_text_quality_good p1.1 then p1
  else
    let p2 := extract_text_via_images caps pdfBytes pageStart pageEnd order
    (p2.1, p1.2 ++ p2.2)

/-- `_extract_text_from_image`: single Vision API OCR call on the raw bytes;
every failure mode is caught and yields `""`. -/
def extract_text_from_image (caps : Caps) (fileBytes : Bytes) : String × List Event :=
  match caps.ocrImage fileBytes with
  | .error _ => ("", [Event.ocrImageEv])
  | .ok r =>
    if r.errorMessage ≠ "" then ("", [Event.ocrImageEv])
    else
      match r.annotations with
      | [] => ("", [Event.ocrImageEv])
      | d :: _ => (d, [Event.ocrImageEv])

/-- `detect_text`: main entry point, routing on emptiness and the PDF magic
bytes. -/
def detect_text (caps : Caps) (fileBytes : Bytes)
    (pageStart pageEnd : Option Int) (order : List (Int × Int)) :
    String × List Event :=
  if fileBytes.isEmpty then ("", [])
  else if is_pdf fileBytes then
    extract_text_from_pdf_hybrid caps fileBytes pageStart pageEnd order
  else
    extract_text_from_image caps fileBytes

/-- The canonical (ascending page order) collection of non-empty per-page OCR
results of the fallback phase, against which the order-independence of the
merge is stated. -/
def ocrEntries (total : Nat) (w : Int → String) (pageStart pageEnd : Option Int) :
    List (Int × String) :=
  (futuresOf total (effStart pageStart) (effEnd total pageEnd)).filterMap (fun f =>
    let t := w f.2
    if t ≠ "" then some (f.1, t) else none)

/-- A searchable one-page PDF whose embedded text passes the quality check;
the rasterization and OCR capabilities all fail. -/
def goodText : String := String.mk (List.replicate 60 'a')

/-- Oracles for a one-page searchable PDF with good embedded text. -/
def capsFree : Caps where
  pdfParse := fun _ => some [Except.ok goodText]
  renderAll := fun _ => Except.ok 1
  ocrPage := fun _ => Except.error ()
  ocrImage := fun _ => Except.error ()

/-- Oracles where every external capability fails. -/
def capsFail : Caps where
  pdfParse := fun _ => none
  renderAll := fun _ => Except.error ()
  ocrPage := fun _ => Except.error ()
  ocrImage := fun _ => Except.error ()

/-- Oracles for a two-page scanned PDF (no embedded text, OCR succeeds). -/
def capsTwoPages : Caps where
  pdfParse := fun _ => some [Except.ok "", Except.ok ""]
  renderAll := fun _ => Except.ok 2
  ocrPage := fun n => Except.ok ⟨"", ["text" ++ toString n]⟩
  ocrImage := fun _ => Except.ok ⟨"", ["imagetext"]⟩

/-- Oracles for a five-page searchable PDF. -/
def capsFivePages : Caps where
  pdfParse := fun _ => some [Except.ok goodText, Except.ok "p2", Except.ok "p3",
    Except.ok "p4", Except.ok "p5"]
  renderAll := fun _ => Except.ok 5
  ocrPage := fun _ => Except.error ()
  ocrImage := fun _ => Except.error ()

/-!  ## Basic lemmas about the embedding -/

theorem is_pdf_nil : is_pdf ([] : Bytes) = false := rfl

theorem is_pdf_ne_nil {bytes : Bytes} (h : is_pdf bytes = true) : bytes ≠ [] := by
  intro hnil
  rw [hnil] at h
  exact absurd h (by decide)

theorem extract_text_directly_events (caps : Caps) (pdfBytes : Bytes)
    (pageStart pageEnd : Option Int) :
    (extract_text_directly_from_pdf caps pdfBytes pageStart pageEnd).2 = [Event.pdfOpenEv] := by
  unfold extract_text_directly_from_pdf
  cases caps.pdfParse pdfBytes <;> rfl

theorem extract_text_from_image_events (caps : Caps) (fileBytes : Bytes) :
    (extract_text_from_image caps fileBytes).2 = [Event.ocrImageEv] := by
  unfold extract_text_from_image
  rcases caps.ocrImage fileBytes with _ | r
  · rfl
  · dsimp only
    split
    · rfl
    · cases r.annotations <;> rfl

theorem effStart_ge_one (pageStart : Option Int) : 1 ≤ effStart pageStart := by
  unfold effStart
  rcases pageStart with _ | v
  · exact le_refl 1
  · dsimp only
    split
    · exact le_max_left 1 v
    · exact le_refl 1

theorem pySliceIdx_le (len : Nat) (i : Int) : pySliceIdx len i ≤ len := by
  unfold pySliceIdx
  split <;> omega

/-!  ## Claim theorems -/

/-- C10: for empty input bytes, `detect_text` returns the empty string and
performs no capability invocation at all (no PDF parsing, no rasterization,
no vision-OCR call): the event trace is empty. -/
theorem detect_text_empty_input (caps : Caps) (pageStart pageEnd : Option Int)
    (order : List (Int × Int)) :
    detect_text caps [] pageStart pageEnd order = ("", []) := rfl

/-- C9: for every non-PDF (image) input, the result of `detect_text` is
independent of the page-range arguments (and of the futures completion
order): two calls on the same bytes with the same capabilities but different
page ranges are identical. -/
theorem image_path_ignores_page_range (caps : Caps) (fileBytes : Bytes)
    (ps1 pe1 ps2 pe2 : Option Int) (order1 order2 : List (Int × Int))
    (h : is_pdf fileBytes = false) :
    detect_text caps fileBytes ps1 pe1 order1 = detect_text caps fileBytes ps2 pe2 order2 := by
  unfold detect_text
  rw [h]
  simp

/-- C9 witness: concrete image bytes with two different page ranges. -/
theorem image_path_ignores_page_range_witness :
    is_pdf [9, 9, 9] = false ∧
    detect_text capsTwoPages [9, 9, 9] (some 1) (some 2) [(1, 1)]
      = detect_text capsTwoPages [9, 9, 9] none (some 7) [] :=
  ⟨by decide,
   image_path_ignores_page_range capsTwoPages [9, 9, 9] (some 1) (some 2) none (some 7)
     [(1, 1)] [] (by decide)⟩

/-- C7: `detect_text` routes to the PDF hybrid pipeline exactly when the
first four bytes are the `%PDF` signature; every other non-empty input is
handled by `_extract_text_from_image`, whose event trace is exactly one
vision-OCR invocation — in particular the direct text extractor
(`pdfplumber`) is never invoked on that path. -/
theorem detect_text_routing (caps : Caps) (fileBytes : Bytes)
    (pageStart pageEnd : Option Int) (order : List (Int × Int)) :
    (is_pdf fileBytes = true →
      detect_text caps fileBytes pageStart pageEnd order
        = extract_text_from_pdf_hybrid caps fileBytes pageStart pageEnd order)
    ∧ (is_pdf fileBytes = false → fileBytes ≠ [] →
      detect_text caps fileBytes pageStart pageEnd order
        = extract_text_from_image caps fileBytes
      ∧ (detect_text caps fileBytes pageStart pageEnd order).2 = [Event.ocrImageEv]) := by
  constructor
  · intro hpdf
    have hne : fileBytes ≠ [] := is_pdf_ne_nil hpdf
    unfold detect_text
    simp only [List.isEmpty_iff]
    rw [if_neg hne, hpdf]
    rfl
  · intro hnotpdf hne
    unfold detect_text
    simp only [List.isEmpty_iff]
    rw [if_neg hne, hnotpdf]
    exact ⟨rfl, extract_text_from_image_events caps fileBytes⟩

/-- C7 witness: a PDF input routed to the hybrid pipeline and an image input
routed to the single-call OCR path. -/
theorem detect_text_routing_witness :
    (is_pdf pdfMagic = true ∧
      detect_text capsTwoPages pdfMagic none none []
        = extract_text_from_pdf_hybrid capsTwoPages pdfMagic none none [])
    ∧ (is_pdf [9] = false ∧ [9] ≠ ([] : Bytes) ∧
      (detect_text capsTwoPages [9] none none []).2 = [Event.ocrImageEv]) :=
  ⟨⟨by decide, (detect_text_routing capsTwoPages pdfMagic none none []).1 (by decide)⟩,
   ⟨by decide, by decide,
    ((detect_text_routing capsTwoPages [9] none none []).2 (by decide) (by decide)).2⟩⟩

/-- C3: the pipeline boundary converts total failures to the empty string.
Every capability failure mode is caught inside the embedding (each oracle's
`Except.error` models the underlying call raising), and when the PDF cannot
be opened, rasterization throws and the image OCR call throws, `detect_text`
still returns — with the empty string as result — rather than propagating a
fault. -/
theorem detect_text_total_failure (caps : Caps) (fileBytes : Bytes)
    (pageStart pageEnd : Option Int) (order : List (Int × Int))
    (hparse : caps.pdfParse fileBytes = none)
    (hrender : caps.renderAll fileBytes = Except.error ())
    (himg : caps.ocrImage fileBytes = Except.error ()) :
    (detect_text caps fileBytes pageStart pageEnd order).1 = "" := by
  unfold detect_text
  split
  · rfl
  · split
    · unfold extract_text_from_pdf_hybrid extract_text_directly_from_pdf
      rw [hparse]
      simp only [ne_eq, not_true_eq_false, false_and, if_false]
      unfold extract_text_via_images
      rw [hrender]
    · unfold extract_text_from_image
      rw [himg]

/-- C3 witness: concrete all-failing capabilities on a corrupt PDF input. -/
theorem detect_text_total_failure_witness :
    capsFail.pdfParse pdfMagic = none ∧
    capsFail.renderAll pdfMagic = Except.error () ∧
    capsFail.ocrImage pdfMagic = Except.error () ∧
    (detect_text capsFail pdfMagic (some 1) (some 3) []).1 = "" :=
  ⟨rfl, rfl, rfl, detect_text_total_failure capsFail pdfMagic (some 1) (some 3) [] rfl rfl rfl⟩


theorem pyStrip_length_le (s : List Char) : (pyStrip s).length ≤ s.length := by
  unfold pyStrip
  rw [List.length_reverse]
  refine le_trans (List.dropWhile_sublist pyIsSpace).length_le ?_
  rw [List.length_reverse]
  exact (List.dropWhile_sublist pyIsSpace).length_le

theorem length_pos_of_ne_empty {text : String} (h : text ≠ "") : 0 < text.length := by
  have hd : text.data ≠ [] := by
    intro hdata
    exact h (String.ext (by rw [hdata]))
  have hlen : text.length = text.data.length := rfl
  rw [hlen]
  exact List.length_pos.mpr hd

/-- The classifier's rational-percentage tests, reduced to natural-number
arithmetic so that concrete texts can be checked by `decide` (the `ℚ`
division in the classifier does not evaluate inside the kernel). -/
theorem quality_iff_core (text : String) :
    is_text_quality_good text = true ↔
      (text ≠ "" ∧ 50 ≤ (pyStrip text.data).length
       ∧ 100 * countCid text.data ≤ 5 * text.length
       ∧ 100 * text.data.countP isControlChar ≤ 10 * text.length) := by
  by_cases hempty : text = ""
  · simp [is_text_quality_good, hempty]
  · have hL : (0 : ℚ) < (text.length : ℚ) := by
      exact_mod_cast length_pos_of_ne_empty hempty
    have k5 : ((countCid text.data : ℚ) / (text.length : ℚ) * 100 > 5) ↔
        ¬(100 * countCid text.data ≤ 5 * text.length) := by
      rw [div_mul_eq_mul_div, gt_iff_lt, lt_div_iff hL, not_le]
      constructor
      · intro h
        have h2 : ((5 * text.length : Nat) : ℚ) < ((100 * countCid text.data : Nat) : ℚ) := by
          push_cast
          linarith
        exact_mod_cast h2
      · intro h
        have h2 : ((5 * text.length : Nat) : ℚ) < ((100 * countCid text.data : Nat) : ℚ) := by
          exact_mod_cast h
        push_cast at h2
        linarith
    have k10 : ((text.data.countP isControlChar : ℚ) / (text.length : ℚ) * 100 > 10) ↔
        ¬(100 * text.data.countP isControlChar ≤ 10 * text.length) := by
      rw [div_mul_eq_mul_div, gt_iff_lt, lt_div_iff hL, not_le]
      constructor
      · intro h
        have h2 : ((10 * text.length : Nat) : ℚ)
            < ((100 * text.data.countP isControlChar : Nat) : ℚ) := by
          push_cast
          linarith
        exact_mod_cast h2
      · intro h
        have h2 : ((10 * text.length : Nat) : ℚ)
            < ((100 * text.data.countP isControlChar : Nat) : ℚ) := by
          exact_mod_cast h
        push_cast at h2
        linarith
    unfold is_text_quality_good
    dsimp only
    rw [decide_eq_false hempty, Bool.false_or]
    rw [if_pos hempty, if_pos hempty]
    split_ifs with h50 hcid hctrl
    · simp only [false_iff, not_and]
      intro _ h
      simp only [decide_eq_true_eq] at h50
      omega
    · simp only [false_iff]
      rintro ⟨-, -, hc, -⟩
      exact (k5.mp hcid) hc
    · simp only [false_iff]
      rintro ⟨-, -, -, hk⟩
      exact (k10.mp hctrl) hk
    · simp only [true_iff]
      simp only [decide_eq_true_eq, not_lt] at h50
      refine ⟨hempty, h50, ?_, ?_⟩
      · exact not_not.mp (fun h => hcid (k5.mpr h))
      · exact not_not.mp (fun h => hctrl (k10.mpr h))

/-- C4: the quality classifier accepts a text exactly when the text is
non-empty with trimmed length at least 50, the ratio of `'(cid:'`
occurrences to total length is at most 5%, and the ratio of control
characters (code point below 32 other than `\n`, `\t`, `\r`) to total length
is at most 10%. -/
theorem quality_classifier_spec (text : String) :
    is_text_quality_good text = true ↔
      (text ≠ "" ∧ 50 ≤ (pyStrip text.data).length
       ∧ (countCid text.data : ℚ) / (text.length : ℚ) ≤ 5 / 100
       ∧ (text.data.countP isControlChar : ℚ) / (text.length : ℚ) ≤ 10 / 100) := by
  rw [quality_iff_core]
  by_cases hempty : text = ""
  · simp [hempty]
  · have hL : (0 : ℚ) < (text.length : ℚ) := by
      exact_mod_cast length_pos_of_ne_empty hempty
    have k5 : ((countCid text.data : ℚ) / (text.length : ℚ) ≤ 5 / 100) ↔
        (100 * countCid text.data ≤ 5 * text.length) := by
      rw [div_le_div_iff hL (by norm_num : (0 : ℚ) < 100)]
      constructor
      · intro h
        have h2 : ((100 * countCid text.data : Nat) : ℚ) ≤ ((5 * text.length : Nat) : ℚ) := by
          push_cast
          linarith
        exact_mod_cast h2
      · intro h
        have h2 : ((100 * countCid text.data : Nat) : ℚ) ≤ ((5 * text.length : Nat) : ℚ) := by
          exact_mod_cast h
        push_cast at h2
        linarith
    have k10 : ((text.data.countP isControlChar : ℚ) / (text.length : ℚ) ≤ 10 / 100) ↔
        (100 * text.data.countP isControlChar ≤ 10 * text.length) := by
      rw [div_le_div_iff hL (by norm_num : (0 : ℚ) < 100)]
      constructor
      · intro h
        have h2 : ((100 * text.data.countP isControlChar : Nat) : ℚ)
            ≤ ((10 * text.length : Nat) : ℚ) := by
          push_cast
          linarith
        exact_mod_cast h2
      · intro h
        have h2 : ((100 * text.data.countP isControlChar : Nat) : ℚ)
            ≤ ((10 * text.length : Nat) : ℚ) := by
          exact_mod_cast h
        push_cast at h2
        linarith
    rw [k5, k10]

/-- C1: the free-path guarantee.  When the direct extraction of a PDF
produces non-empty text accepted by the quality classifier, `detect_text`
returns that text unchanged, and its event trace contains no vision-OCR
invocation at all. -/
theorem free_path_no_ocr (caps : Caps) (fileBytes : Bytes)
    (pageStart pageEnd : Option Int) (order : List (Int × Int))
    (hpdf : is_pdf fileBytes = true)
    (hne : (extract_text_directly_from_pdf caps fileBytes pageStart pageEnd).1 ≠ "")
    (hq : is_text_quality_good
      (extract_text_directly_from_pdf caps fileBytes pageStart pageEnd).1 = true) :
    (detect_text caps fileBytes pageStart pageEnd order).1
      = (extract_text_directly_from_pdf caps fileBytes pageStart pageEnd).1
    ∧ ∀ ev ∈ (detect_text caps fileBytes pageStart pageEnd order).2, ev.isOcr = false := by
  have hne' : fileBytes ≠ [] := is_pdf_ne_nil hpdf
  unfold detect_text
  simp only [List.isEmpty_iff]
  rw [if_neg hne', hpdf]
  simp only [if_true]
  unfold extract_text_from_pdf_hybrid
  rw [if_pos ⟨hne, hq⟩]
  refine ⟨rfl, ?_⟩
  intro ev hev
  rw [extract_text_directly_events] at hev
  simp only [List.mem_singleton] at hev
  subst hev
  rfl

/-- C1 witness: a searchable one-page PDF whose direct text is accepted. -/
theorem free_path_no_ocr_witness :
    is_pdf pdfMagic = true
    ∧ (extract_text_directly_from_pdf capsFree pdfMagic none none).1 ≠ ""
    ∧ is_text_quality_good (extract_text_directly_from_pdf capsFree pdfMagic none none).1 = true
    ∧ ((detect_text capsFree pdfMagic none none []).1
        = (extract_text_directly_from_pdf capsFree pdfMagic none none).1
      ∧ ∀ ev ∈ (detect_text capsFree pdfMagic none none []).2, ev.isOcr = false) :=
  ⟨by decide, by decide, (quality_iff_core _).mpr (by decide),
   free_path_no_ocr capsFree pdfMagic none none [] (by decide) (by decide)
     ((quality_iff_core _).mpr (by decide))⟩


theorem mem_intRange {s e n : Int} (h : n ∈ intRange s e) : s ≤ n ∧ n ≤ e := by
  unfold intRange at h
  obtain ⟨k, hk, rfl⟩ := List.mem_map.mp h
  rw [List.mem_range] at hk
  omega

theorem imagesToProcess_eq (total : Nat) (s e : Int) (hs : 1 ≤ s) :
    imagesToProcess total s e
      = (List.range (pySliceIdx total e - pySliceIdx total (s - 1))).map
          (fun k : Nat => s + (k : Int)) := by
  unfold imagesToProcess pySlice
  have hlen : (pageNumsOf total).length = total := by
    unfold pageNumsOf
    rw [List.length_map, List.length_range]
  rw [hlen]
  have hjle : pySliceIdx total e ≤ total := pySliceIdx_le total e
  apply List.ext_getElem
  · rw [List.length_drop, List.length_take, List.length_map, List.length_range, hlen]
    have := pySliceIdx_le total e
    omega
  · intro n h1 h2
    rw [List.getElem_drop, List.getElem_take]
    have hibound : pySliceIdx total (s - 1) + n < total := by
      simp only [List.length_drop, List.length_take, hlen] at h1
      omega
    have hieq : (pySliceIdx total (s - 1) : Int) = s - 1 := by
      have hlt : pySliceIdx total (s - 1) < total := by omega
      unfold pySliceIdx at hlt ⊢
      split
      · omega
      · rw [if_neg (by omega)] at hlt
        omega
    simp only [pageNumsOf, List.getElem_map, List.getElem_range]
    push_cast
    omega

theorem futuresOf_eq (total : Nat) (s e : Int) (hs : 1 ≤ s) :
    futuresOf total s e = (imagesToProcess total s e).map (fun n => (n, n)) := by
  unfold futuresOf
  rw [imagesToProcess_eq total s e hs]
  apply List.ext_getElem
  · simp [List.enum_length]
  · intro n h1 h2
    simp only [List.getElem_map, List.getElem_enum, List.getElem_range]

theorem mem_imagesToProcess {total : Nat} {s e q : Int} (hs : 1 ≤ s)
    (hq : q ∈ imagesToProcess total s e) :
    s ≤ q ∧ q ≤ (total : Int) ∧ (0 ≤ e → q ≤ e) := by
  rw [imagesToProcess_eq total s e hs] at hq
  simp only [List.mem_map, List.mem_range] at hq
  obtain ⟨k, hk, rfl⟩ := hq
  unfold pySliceIdx at hk
  split_ifs at hk <;> omega

theorem futuresOf_pairwise (total : Nat) (s e : Int) (hs : 1 ≤ s) :
    (futuresOf total s e).Pairwise (fun a b => a.1 < b.1) := by
  rw [futuresOf_eq total s e hs, imagesToProcess_eq total s e hs]
  rw [List.pairwise_map, List.pairwise_map]
  refine (List.pairwise_lt_range _).imp ?_
  intro a b hab
  simp only
  omega

theorem collectParts_eq_ocrEntries (caps : Caps) (total : Nat)
    (pageStart pageEnd : Option Int) :
    collectParts caps (futuresOf total (effStart pageStart) (effEnd total pageEnd))
      = ocrEntries total (pageWorker caps) pageStart pageEnd := rfl

theorem collectParts_pairwise (caps : Caps) (F : List (Int × Int))
    (hpw : F.Pairwise (fun a b => a.1 < b.1)) :
    (collectParts caps F).Pairwise pageLt := by
  unfold collectParts
  rw [List.pairwise_filterMap]
  refine hpw.imp ?_
  intro a b hab x hx y hy
  simp only at hx hy
  split_ifs at hx hy with h1 h2
  · simp only [Option.mem_def, Option.some.injEq] at hx hy
    subst hx
    subst hy
    exact hab
  all_goals simp at hx hy

theorem sort_collect (caps : Caps) (F order : List (Int × Int))
    (hperm : order.Perm F)
    (hpw : F.Pairwise (fun a b => a.1 < b.1)) :
    List.insertionSort pageLe (collectParts caps order) = collectParts caps F := by
  have hpermC : (collectParts caps order).Perm (collectParts caps F) := hperm.filterMap _
  have hsortedF : (collectParts caps F).Pairwise pageLt := collectParts_pairwise caps F hpw
  have hle : List.Sorted pageLe (List.insertionSort pageLe (collectParts caps order)) :=
    List.sorted_insertionSort pageLe _
  have hp3 : (List.insertionSort pageLe (collectParts caps order)).Perm
      (collectParts caps F) :=
    (List.perm_insertionSort pageLe _).trans hpermC
  have hneF : (collectParts caps F).Pairwise (fun a b : Int × String => a.1 ≠ b.1) :=
    hsortedF.imp (fun h => ne_of_lt h)
  have hne2 : (List.insertionSort pageLe (collectParts caps order)).Pairwise
      (fun a b : Int × String => a.1 ≠ b.1) :=
    (hp3.pairwise_iff (fun h => h.symm)).mpr hneF
  have hlt : (List.insertionSort pageLe (collectParts caps order)).Pairwise pageLt :=
    List.Pairwise.imp₂ (fun _ _ hab hne => lt_of_le_of_ne hab hne) hle hne2
  exact List.eq_of_perm_of_sorted hp3 hlt hsortedF


/-- C2: order-independence of the merge.  For any completion order of the
dispatched per-page OCR futures (any permutation of the futures list), the
fallback output is the canonical concatenation of `--- Page N ---`-blocks in
strictly ascending page order, pages with empty OCR text omitted; and the
direct path is the analogous concatenation of its own `--- Page N ---`
blocks, built with the same `pageMarker` convention. -/
theorem merge_ordering (caps : Caps) (pdfBytes : Bytes) (pageStart pageEnd : Option Int)
    (order : List (Int × Int)) (total : Nat)
    (hr : caps.renderAll pdfBytes = Except.ok total)
    (hperm : order.Perm (futuresOf total (effStart pageStart) (effEnd total pageEnd))) :
    (extract_text_via_images caps pdfBytes pageStart pageEnd order).1
      = String.intercalate "\n" ((ocrEntries total (pageWorker caps) pageStart pageEnd).map
          (fun nt => pageMarker nt.1 nt.2))
    ∧ (ocrEntries total (pageWorker caps) pageStart pageEnd).Pairwise pageLt
    ∧ (∀ nt ∈ ocrEntries total (pageWorker caps) pageStart pageEnd,
        nt.2 = pageWorker caps nt.1 ∧ nt.2 ≠ "")
    ∧ (∀ pages, caps.pdfParse pdfBytes = some pages →
        (extract_text_directly_from_pdf caps pdfBytes pageStart pageEnd).1
          = String.intercalate "\n" ((directEntries pages pageStart pageEnd).map
              (fun nt => pageMarker nt.1 nt.2))) := by
  have hs1 : 1 ≤ effStart pageStart := effStart_ge_one pageStart
  have hpw := futuresOf_pairwise total (effStart pageStart) (effEnd total pageEnd) hs1
  refine ⟨?_, ?_, ?_, ?_⟩
  · unfold extract_text_via_images
    rw [hr]
    dsimp only
    by_cases himgs :
        (imagesToProcess total (effStart pageStart) (effEnd total pageEnd)).isEmpty = true
    · rw [if_pos himgs]
      have himgs2 : imagesToProcess total (effStart pageStart) (effEnd total pageEnd) = [] :=
        List.isEmpty_iff.mp himgs
      have hfut : futuresOf total (effStart pageStart) (effEnd total pageEnd) = [] := by
        unfold futuresOf
        rw [himgs2]
        rfl
      have hent : ocrEntries total (pageWorker caps) pageStart pageEnd = [] := by
        unfold ocrEntries
        rw [hfut]
        rfl
      rw [hent]
      rfl
    · rw [if_neg himgs]
      rw [sort_collect caps _ order hperm hpw, collectParts_eq_ocrEntries]
  · rw [← collectParts_eq_ocrEntries]
    exact collectParts_pairwise caps _ hpw
  · intro nt hnt
    unfold ocrEntries at hnt
    obtain ⟨f, hf, hfeq⟩ := List.mem_filterMap.mp hnt
    rw [futuresOf_eq total _ _ hs1] at hf
    obtain ⟨m, hm, rfl⟩ := List.mem_map.mp hf
    dsimp only at hfeq
    split_ifs at hfeq with hw
    rw [Option.some.injEq] at hfeq
    subst hfeq
    exact ⟨rfl, hw⟩
  · intro pages hp
    unfold extract_text_directly_from_pdf
    rw [hp]
    rfl

/-- C2 witness: a two-page scanned PDF whose futures complete in reversed
order still merges in ascending page order. -/
theorem merge_ordering_witness :
    capsTwoPages.renderAll pdfMagic = Except.ok 2
    ∧ ([((2 : Int), (2 : Int)), ((1 : Int), (1 : Int))]).Perm
        (futuresOf 2 (effStart none) (effEnd 2 none))
    ∧ (extract_text_via_images capsTwoPages pdfMagic none none [(2, 2), (1, 1)]).1
        = String.intercalate "\n" ((ocrEntries 2 (pageWorker capsTwoPages) none none).map
            (fun nt => pageMarker nt.1 nt.2)) :=
  ⟨rfl, by decide,
   (merge_ordering capsTwoPages pdfMagic none none [(2, 2), (1, 1)] 2 rfl (by decide)).1⟩


theorem getD_set_ne (l : List (Except Unit String)) {i j : Nat} (h : i ≠ j)
    (x d : Except Unit String) : (l.set i x).getD j d = l.getD j d := by
  rw [List.getD_eq_getD_get?, List.getD_eq_getD_get?, List.get?_eq_getElem?,
    List.get?_eq_getElem?, List.getElem?_set_ne h]

theorem getD_set_err (pages : List (Except Unit String)) (i : Nat) :
    (pages.set i (Except.error ())).getD i (Except.error ()) = Except.error () := by
  rw [List.getD_eq_getD_get?, List.get?_eq_getElem?, List.getElem?_set_self']
  cases pages[i]? <;> rfl

/-- An exception while extracting one page in the direct path (modelled by
setting that page's oracle entry to `Except.error`) removes exactly that
page's entry: every other page of the effective range contributes exactly
what it contributed before. -/
theorem directEntries_set_error (pages : List (Except Unit String))
    (pageStart pageEnd : Option Int) (i : Nat) :
    directEntries (pages.set i (Except.error ())) pageStart pageEnd
      = (directEntries pages pageStart pageEnd).filter
          (fun nt => nt.1 ≠ (i : Int) + 1) := by
  unfold directEntries
  dsimp only
  rw [List.length_set]
  rw [List.filter_filterMap]
  apply List.filterMap_congr
  intro n hn
  have hn1 : 1 ≤ n := le_trans (effStart_ge_one pageStart) (mem_intRange hn).1
  by_cases hni : n = (i : Int) + 1
  · subst hni
    have hidx : ((i : Int) + 1 - 1).toNat = i := by omega
    rw [hidx, getD_set_err]
    cases hg : pages.getD i (Except.error ()) with
    | error e => rfl
    | ok t =>
      dsimp only
      split_ifs with ht
      · simp [Option.filter]
      · rfl
  · have hidx : i ≠ (n - 1).toNat := by omega
    rw [getD_set_ne pages hidx]
    cases hg : pages.getD ((n - 1).toNat) (Except.error ()) with
    | error e => rfl
    | ok t =>
      dsimp only
      split_ifs with ht
      · simp [Option.filter, hni]
      · rfl

/-- An OCR failure for one page in the fallback path (its worker result
forced to `""`) removes exactly that page's entry from the merged
collection, leaving every other page's entry unchanged. -/
theorem ocrEntries_update (total : Nat) (w : Int → String)
    (pageStart pageEnd : Option Int) (p : Int) :
    ocrEntries total (fun q => if q = p then "" else w q) pageStart pageEnd
      = (ocrEntries total w pageStart pageEnd).filter (fun nt => nt.1 ≠ p) := by
  unfold ocrEntries
  rw [List.filter_filterMap]
  apply List.filterMap_congr
  intro f hf
  rw [futuresOf_eq total _ _ (effStart_ge_one pageStart)] at hf
  obtain ⟨m, hm, rfl⟩ := List.mem_map.mp hf
  dsimp only
  by_cases hmp : m = p
  · subst hmp
    rw [if_pos rfl]
    rw [if_neg (by simp)]
    split_ifs with hw
    · simp [Option.filter]
    · rfl
  · rw [if_neg hmp]
    split_ifs with hw
    · simp [Option.filter, hmp]
    · rfl

/-- C8: page-failure isolation.  A vision-OCR call that raises yields the
empty worker result; a direct-extraction exception on page `i+1` (the
`Except.error` entry) removes only that page's entry; and a per-page OCR
result forced empty removes only that page's entry — in each case every
other page of the range keeps its exact contribution. -/
theorem page_failure_isolated (pages : List (Except Unit String))
    (pageStart pageEnd : Option Int) (i : Nat) (total : Nat) (w : Int → String)
    (p : Int) (caps : Caps) (hcaps : caps.ocrPage p = Except.error ()) :
    pageWorker caps p = ""
    ∧ directEntries (pages.set i (Except.error ())) pageStart pageEnd
        = (directEntries pages pageStart pageEnd).filter
            (fun nt => nt.1 ≠ (i : Int) + 1)
    ∧ ocrEntries total (fun q => if q = p then "" else w q) pageStart pageEnd
        = (ocrEntries total w pageStart pageEnd).filter (fun nt => nt.1 ≠ p) := by
  refine ⟨?_, directEntries_set_error pages pageStart pageEnd i,
    ocrEntries_update total w pageStart pageEnd p⟩
  unfold pageWorker
  rw [hcaps]

/-- C8 witness: a two-page document where page 1 direct extraction raises
and the page-2 OCR call raises. -/
theorem page_failure_isolated_witness :
    capsFree.ocrPage 2 = Except.error ()
    ∧ (pageWorker capsFree 2 = ""
      ∧ directEntries ([Except.ok "x", Except.ok "y"].set 0 (Except.error ())) none none
          = (directEntries [Except.ok "x", Except.ok "y"] none none).filter
              (fun nt => nt.1 ≠ ((0 : Nat) : Int) + 1)
      ∧ ocrEntries 2 (fun q => if q = 2 then "" else (fun _ : Int => "t") q) none none
          = (ocrEntries 2 (fun _ : Int => "t") none none).filter (fun nt => nt.1 ≠ 2)) :=
  ⟨rfl, page_failure_isolated [Except.ok "x", Except.ok "y"] none none 0 2
    (fun _ : Int => "t") 2 capsFree rfl⟩


theorem mem_renderEvents {total n : Nat} :
    Event.renderEv n ∈ (List.range total).map (fun i => Event.renderEv (i + 1))
      ↔ (1 ≤ n ∧ n ≤ total) := by
  constructor
  · intro h
    obtain ⟨i, hi, heq⟩ := List.mem_map.mp h
    rw [List.mem_range] at hi
    have : i + 1 = n := by simpa using heq
    omega
  · intro h
    refine List.mem_map.mpr ⟨n - 1, ?_, ?_⟩
    · rw [List.mem_range]
      omega
    · congr 1
      omega

theorem ocrPageEv_not_mem_renderEvents {total : Nat} {q : Int} :
    Event.ocrPageEv q ∉ (List.range total).map (fun i => Event.renderEv (i + 1)) := by
  intro h
  obtain ⟨i, -, heq⟩ := List.mem_map.mp h
  exact absurd heq (by simp)

theorem renderEv_not_mem_ocrEvents {imgs : List Int} {n : Nat} :
    Event.renderEv n ∉ imgs.map (fun p => Event.ocrPageEv p) := by
  intro h
  obtain ⟨p, -, heq⟩ := List.mem_map.mp h
  exact absurd heq (by simp)

/-- C5 counterexample: with a two-page PDF and requested range `[1, 1]`, the
rasterization capability still produces the raster of page 2, a page
outside the requested sub-range — the code converts the whole document and
only then slices. -/
theorem render_subrange_counterexample :
    Event.renderEv 2 ∈ (extract_text_via_images capsTwoPages pdfMagic
        (some 1) (some 1) [(1, 1)]).2
    ∧ ¬((2 : Nat) ≤ 1) :=
  ⟨by decide, by decide⟩

/-- C5 (amended): when a page range `[a, b]` with `1 ≤ a ≤ b` is given, the
rasterization capability renders every page of the document (also the pages
outside the requested sub-range), while the per-page OCR calls are confined
to pages within `[a, b]`. -/
theorem render_whole_document_ocr_in_range (caps : Caps) (pdfBytes : Bytes)
    (a b : Int) (order : List (Int × Int)) (total : Nat)
    (hr : caps.renderAll pdfBytes = Except.ok total)
    (ha : 1 ≤ a) (hab : a ≤ b) :
    (∀ n : Nat, Event.renderEv n ∈ (extract_text_via_images caps pdfBytes
        (some a) (some b) order).2 ↔ (1 ≤ n ∧ n ≤ total))
    ∧ (∀ q : Int, Event.ocrPageEv q ∈ (extract_text_via_images caps pdfBytes
        (some a) (some b) order).2 → a ≤ q ∧ q ≤ b) := by
  have hsa : effStart (some a) = a := by
    unfold effStart
    dsimp only
    rw [if_pos (by omega : a ≠ 0)]
    omega
  have heb : effEnd total (some b) = min (total : Int) b := by
    unfold effEnd
    dsimp only
    rw [if_pos (by omega : b ≠ 0)]
  unfold extract_text_via_images
  rw [hr]
  dsimp only
  by_cases himgs :
      (imagesToProcess total (effStart (some a)) (effEnd total (some b))).isEmpty = true
  · rw [if_pos himgs]
    refine ⟨fun n => mem_renderEvents, fun q hq => absurd hq ocrPageEv_not_mem_renderEvents⟩
  · rw [if_neg himgs]
    constructor
    · intro n
      rw [List.mem_append]
      constructor
      · intro h
        rcases h with h | h
        · exact mem_renderEvents.mp h
        · exact absurd h renderEv_not_mem_ocrEvents
      · intro h
        exact Or.inl (mem_renderEvents.mpr h)
    · intro q hq
      rw [List.mem_append] at hq
      rcases hq with h | h
      · exact absurd h ocrPageEv_not_mem_renderEvents
      · obtain ⟨p, hp, heq⟩ := List.mem_map.mp h
        have hpq : p = q := by simpa using heq
        subst hpq
        have hs1 : 1 ≤ effStart (some a) := by omega
        have hb := mem_imagesToProcess hs1 hp
        have h0 : 0 ≤ effEnd total (some b) := by
          rw [heb]
          omega
        have h3 := hb.2.2 h0
        rw [hsa] at hb
        rw [heb] at h3
        exact ⟨hb.1, by omega⟩

/-- C5 witness: two-page document, requested range `[1, 1]`: page 2 is
rendered even though only page 1 is in range. -/
theorem render_whole_document_witness :
    capsTwoPages.renderAll pdfMagic = Except.ok 2
    ∧ (1 : Int) ≤ 1
    ∧ (Event.renderEv 2 ∈ (extract_text_via_images capsTwoPages pdfMagic
        (some 1) (some 1) [(1, 1)]).2 ↔ (1 ≤ 2 ∧ 2 ≤ 2)) :=
  ⟨rfl, le_refl 1,
   (render_whole_document_ocr_in_range capsTwoPages pdfMagic 1 1 [(1, 1)] 2 rfl
      (le_refl 1) (le_refl 1)).1 2⟩


/-- C6 counterexample: on a one-page searchable PDF, the range `[2, 3]`
(with `2 ≤ 3`) yields the empty string, whereas bounds clamped to
`[1, totalPages] = [1, 1]` would have produced page 1's text — the start
bound is not clamped from above by the page count. -/
theorem page_clamp_counterexample :
    (2 : Int) ≤ 3
    ∧ (detect_text capsFree pdfMagic (some 2) (some 3) []).1 = ""
    ∧ (detect_text capsFree pdfMagic (some 1) (some 1) []).1 ≠ "" := by
  refine ⟨by decide, by decide, ?_⟩
  unfold detect_text
  rw [if_neg (by decide), if_pos (by decide)]
  unfold extract_text_from_pdf_hybrid
  rw [if_pos ⟨by decide, (quality_iff_core _).mpr (by decide)⟩]
  decide

/-- C6 (amended): the effective start is `max 1 pageStart` (a zero or absent
bound meaning 1, with no clamping from above), the effective end is
`min totalPages pageEnd` (a zero or absent bound meaning `totalPages`, with
no clamping from below); in particular `pageStart = 0, pageEnd = 1000` on a
five-page document yields exactly the same result as
`pageStart = 1, pageEnd = 5`. -/
theorem page_bounds_spec (caps : Caps) (fileBytes : Bytes) (order : List (Int × Int))
    (pages : List (Except Unit String)) (a : Int)
    (hparse : caps.pdfParse fileBytes = some pages)
    (hlen : pages.length = 5)
    (hrender : caps.renderAll fileBytes = Except.ok 5) :
    effStart (some a) = max 1 a
    ∧ (∀ b : Int, b ≠ 0 → effEnd 5 (some b) = min 5 b)
    ∧ detect_text caps fileBytes (some 0) (some 1000) order
        = detect_text caps fileBytes (some 1) (some 5) order := by
  refine ⟨?_, ?_, ?_⟩
  · unfold effStart
    dsimp only
    rcases eq_or_ne a 0 with rfl | ha0
    · rw [if_neg (by simp)]
      decide
    · rw [if_pos ha0]
  · intro b hb
    unfold effEnd
    dsimp only
    rw [if_pos hb]
    norm_num
  · have e1 : effStart (some (0 : Int)) = effStart (some (1 : Int)) := by decide
    have e2 : effEnd 5 (some (1000 : Int)) = effEnd 5 (some (5 : Int)) := by decide
    have hdir : extract_text_directly_from_pdf caps fileBytes (some 0) (some 1000)
        = extract_text_directly_from_pdf caps fileBytes (some 1) (some 5) := by
      unfold extract_text_directly_from_pdf
      rw [hparse]
      unfold directFromPages directEntries
      dsimp only
      rw [hlen, e1, e2]
    have hvia : extract_text_via_images caps fileBytes (some 0) (some 1000) order
        = extract_text_via_images caps fileBytes (some 1) (some 5) order := by
      unfold extract_text_via_images
      rw [hrender]
      dsimp only
      rw [e1, e2]
    have hhyb : extract_text_from_pdf_hybrid caps fileBytes (some 0) (some 1000) order
        = extract_text_from_pdf_hybrid caps fileBytes (some 1) (some 5) order := by
      unfold extract_text_from_pdf_hybrid
      rw [hdir, hvia]
    unfold detect_text
    rw [hhyb]

/-- C6 witness: a concrete five-page searchable PDF where `(0, 1000)` and
`(1, 5)` page bounds give identical results. -/
theorem page_bounds_spec_witness :
    capsFivePages.pdfParse pdfMagic = some [Except.ok goodText, Except.ok "p2",
      Except.ok "p3", Except.ok "p4", Except.ok "p5"]
    ∧ (([Except.ok goodText, Except.ok "p2", Except.ok "p3", Except.ok "p4",
        Except.ok "p5"] : List (Except Unit String)).length = 5)
    ∧ capsFivePages.renderAll pdfMagic = Except.ok 5
    ∧ detect_text capsFivePages pdfMagic (some 0) (some 1000) []
        = detect_text capsFivePages pdfMagic (some 1) (some 5) [] :=
  ⟨rfl, rfl, rfl,
   (page_bounds_spec capsFivePages pdfMagic []
      ([Except.ok goodText, Except.ok "p2", Except.ok "p3", Except.ok "p4",
        Except.ok "p5"] : List (Except Unit String)) 0 rfl rfl rfl).2.2⟩


/-- C10 witness: the empty-input fast-return at concrete capabilities. -/
theorem detect_text_empty_input_witness :
    detect_text capsFree [] none none [] = ("", []) :=
  detect_text_empty_input capsFree none none []

/-- C4 witness: the classifier characterization instantiated at a concrete
accepted text. -/
theorem quality_classifier_spec_witness :
    is_text_quality_good goodText = true ↔
      (goodText ≠ "" ∧ 50 ≤ (pyStrip goodText.data).length
       ∧ (countCid goodText.data : ℚ) / (goodText.length : ℚ) ≤ 5 / 100
       ∧ (goodText.data.countP isControlChar : ℚ) / (goodText.length : ℚ) ≤ 10 / 100) :=
  quality_classifier_spec goodText

end VisionService
